import Mathlib

/-
Verification of the query/cache subsystem of mutt-ldap.py, a shallow
embedding of the Python 2 source into Lean 4.

Conventions of the embedding:
  - Python byte/text strings that the program treats as UTF-8 text are
    modelled as Lean String; where the exact wire bytes matter, an explicit
    UTF-8 encoder (utf8Bytes) produces List Nat.
  - Python dicts are association lists with first-match lookup (keys are
    never duplicated by the modelled code).
  - Python exceptions are an explicit PyExc value; fallible code returns
    Except PyExc.
  - Generators are modelled by their trace (the list of yielded values and
    how they terminate) together with, for the cached search, the number k
    of next() calls the consumer makes before abandoning the iterator.
-/

set_option maxRecDepth 4000
set_option synthInstance.maxSize 1024

/-- Python exceptions raised or caught by the modelled code. -/
inductive PyExc where
  | runtimeError (msg : String)
  | attributeError (msg : String)
  | keyError (key : String)
  | indexError
  | eofError
  | valueError
  | ioError
  | adminlimitExceeded            -- ldap.ADMINLIMIT_EXCEEDED
  | ldapError (name : String)     -- any other ldap protocol error
  deriving DecidableEq, Repr

deriving instance DecidableEq for Except

/-- Attribute map of a directory entry: attribute name to its ordered list
of values (python-ldap returns a dict of lists of byte strings). -/
abbrev AttrMap := List (String × List String)

/-- A raw search result as python-ldap yields it: a (dn, attributes) pair. -/
abbrev Entry := String × AttrMap

/-- Python dict.get(k) / d[k] lookup on the association-list model. -/
def dictGet? (d : List (String × α)) (k : String) : Option α :=
  match d with
  | [] => none
  | (k₀, v) :: rest => if k₀ = k then some v else dictGet? rest k

/-- Python negative index v[-1]: the last element, IndexError when empty. -/
def pyLast : List α → Except PyExc α
  | [] => .error .indexError
  | [a] => .ok a
  | _ :: a :: as => pyLast (a :: as)

/-- Helper for pySplit: walk the characters, cur holds the reversed
characters of the piece being read. -/
def splitWsAux : List Char → List Char → List String
  | [], cur => if cur.isEmpty then [] else [String.mk cur.reverse]
  | c :: cs, cur =>
      if c.isWhitespace then
        (if cur.isEmpty then [] else [String.mk cur.reverse]) ++ splitWsAux cs []
      else splitWsAux cs (c :: cur)

/-- Python str.split() with no argument: split on runs of whitespace,
dropping empty pieces. -/
def pySplit (s : String) : List String := splitWsAux s.data []

/-- The configuration options the program reads (CONFIG in the source, a
ConfigParser with sections connection, auth, query, results, cache, system;
every option is stored as a string). -/
structure LdapConfig where
  server : String
  port : String
  ssl : String
  starttls : String
  basedn : String
  user : String
  password : String
  gssapi : String
  filter : String
  search_fields : String
  optional_column : String
  cache_enable : String
  cache_path : String
  argv_encoding : String
  deriving DecidableEq, Repr

namespace LDAPConnection

/-- The filter string LDAPConnection.search builds before issuing the
request, line for line from the source:

    post = u'' ; if query: post = u'*'
    fields = config.get('query', 'search_fields').split()
    filterstr = u'(|(f=*query post) joined by a single space)'
    if query_filter: filterstr = u'(&(query_filter)filterstr)'
-/
def filterstr (cfg : LdapConfig) (query : String) : String :=
  let post := if query ≠ "" then "*" else ""
  let fields := pySplit cfg.search_fields
  let base := "(|" ++
    String.intercalate " "
      (fields.map (fun field => "(" ++ field ++ "=*" ++ query ++ post ++ ")"))
    ++ ")"
  if cfg.filter ≠ "" then "(&(" ++ cfg.filter ++ ")" ++ base ++ ")" else base

end LDAPConnection

/-- UTF-8 encoding of one character (the standard 1-4 byte scheme),
modelling Python unicode .encode of a single code point. -/
def utf8Char (c : Char) : List Nat :=
  let n := c.toNat
  if n < 128 then [n]
  else if n < 2048 then [192 + n / 64, 128 + n % 64]
  else if n < 65536 then [224 + n / 4096, 128 + (n / 64) % 64, 128 + n % 64]
  else [240 + n / 262144, 128 + (n / 4096) % 64, 128 + (n / 64) % 64, 128 + n % 64]

/-- UTF-8 bytes of a string: models the .encode call on the filter. -/
def utf8Bytes (s : String) : List Nat :=
  s.data.foldr (fun c acc => utf8Char c ++ acc) []

/-- Python unicode(x, encoding) on a value that is valid UTF-8 text: in this
embedding attribute values are already Lean strings, so decoding is the
identity (the claims under study only concern well-formed text values). -/
def pyUnicode (s : String) : String := s

/-- format_columns(address, data) from the source, with the generator run to
exhaustion (format_entry joins it immediately).  Faithful detail: the
default argument of data.get('displayName', data['cn']) is evaluated
unconditionally, so a missing cn raises KeyError even when displayName is
present.  The optional third column comes from CONFIG results
optional_column. -/
def format_columns (cfg : LdapConfig) (address : String) (data : AttrMap) :
    Except PyExc (List String) := do
  let cn ← match dictGet? data "cn" with
    | some v => pure v
    | none => Except.error (.keyError "cn")
  let nameVals := (dictGet? data "displayName").getD cn
  let name ← pyLast nameVals
  match dictGet? data cfg.optional_column with
  | some vs => do
      let extra ← pyLast vs
      pure [pyUnicode address, pyUnicode name, pyUnicode extra]
  | none => pure [pyUnicode address, pyUnicode name]

/-- format_entry(entry) from the source: no mail attribute means zero rows,
otherwise one tab-joined row per mail value.  The generator is modelled by
the full list of rows, or the first exception it raises. -/
def format_entry (cfg : LdapConfig) (entry : Entry) : Except PyExc (List String) :=
  let data := entry.2
  match dictGet? data "mail" with
  | none => .ok []
  | some ms =>
      ms.mapM (fun m => (format_columns cfg m data).map (String.intercalate "\t"))

/-- Result code ldap.RES_SEARCH_RESULT (0x65): the final message of a
search; any other code keeps the poll loop running. -/
def RES_SEARCH_RESULT : Nat := 101

/-- One outcome of connection.result(msg_id, all=False, timeout=0): either a
(result type, entries) packet or a raised ldap exception.  A pending poll
that returns nothing yet is the packet (0, []). -/
abbrev PollRes := Except PyExc (Nat × List Entry)

/-- How a modelled generator run ends: the function returned (StopIteration
to the consumer), an exception escaped, or the script of poll outcomes ran
out while the loop was still going (the generator is still suspended). -/
inductive Terminal where
  | completed
  | raised (e : PyExc)
  | pending
  deriving DecidableEq, Repr

namespace LDAPConnection

/-- The poll loop of LDAPConnection.search:

    while res_type != RES_SEARCH_RESULT:
        try: res_type, res_data = connection.result(msg_id, all=False, timeout=0)
        except ldap.ADMINLIMIT_EXCEEDED: break
        if res_data:
            for entry in res_data: yield entry

acc is what has been yielded so far. -/
def pollLoop : List PollRes → List Entry → List Entry × Terminal
  | [], acc => (acc, .pending)
  | .error e :: _, acc =>
      if e = .adminlimitExceeded then (acc, .completed) else (acc, .raised e)
  | .ok (resType, resData) :: rest, acc =>
      if resType = RES_SEARCH_RESULT then (acc ++ resData, .completed)
      else pollLoop rest (acc ++ resData)

/-- The trace of the LDAPConnection.search generator when drained: the
filter bytes it sent (none when no request was issued), the entries it
yielded, and how it ended.  The generator body raises RuntimeError on its
first resumption when connection is None. -/
structure SearchRun where
  issued : Option (List Nat)
  yielded : List Entry
  terminal : Terminal
  deriving DecidableEq, Repr

/-- LDAPConnection.search(query) as a trace, over a script of poll
outcomes.  connected models connection is not None. -/
def search (cfg : LdapConfig) (connected : Bool) (query : String)
    (script : List PollRes) : SearchRun :=
  if !connected then
    { issued := none, yielded := [],
      terminal := .raised (.runtimeError "connect to the LDAP server before searching") }
  else
    let f := filterstr cfg query
    let (es, t) := pollLoop script []
    { issued := some (utf8Bytes f), yielded := es, terminal := t }

end LDAPConnection

/-- The persisted cache: a dict from (config id, query) to the entry list
of the completed search. -/
abbrev Cache := List ((String × String) × List Entry)

/-- Lookup in the cache dict (Python dict.get with default None). -/
def cacheGet? (c : Cache) (k : String × String) : Option (List Entry) :=
  match c with
  | [] => none
  | (k₀, v) :: rest => if k₀ = k then some v else cacheGet? rest k

/-- Python dict assignment d[k] = v: replace the value when the key is
present, append the pair otherwise. -/
def cacheSet (c : Cache) (k : String × String) (v : List Entry) : Cache :=
  match c with
  | [] => [(k, v)]
  | (k₀, v₀) :: rest =>
      if k₀ = k then (k₀, v) :: rest else (k₀, v₀) :: cacheSet rest k v

/-
SHA-1 (hashlib.sha1), implemented over Nat with explicit reduction
modulo 2^32 wherever the algorithm wraps.
-/

/-- Reduce to a 32-bit word. -/
def w32 (n : Nat) : Nat := n % 4294967296

/-- Left rotation of a 32-bit word by k bits. -/
def rotl (k n : Nat) : Nat := w32 ((n <<< k) ||| (n >>> (32 - k)))

/-- SHA-1 message padding: append the 0x80 byte, zeros up to 56 mod 64,
then the bit length as 8 big-endian bytes. -/
def sha1Pad (msg : List Nat) : List Nat :=
  let L := msg.length
  msg ++ 128 :: List.replicate ((119 - L % 64) % 64) 0
      ++ (List.range 8).map (fun i => ((L * 8) >>> (8 * (7 - i))) % 256)

/-- Big-endian grouping of bytes into 32-bit words (the padded message
length is a multiple of four, so no bytes are left over). -/
def bytesToWords : List Nat → List Nat
  | b0 :: b1 :: b2 :: b3 :: rest =>
      ((b0 <<< 24) ||| (b1 <<< 16) ||| (b2 <<< 8) ||| b3) :: bytesToWords rest
  | _ => []

/-- Split a word list into 16-word blocks. -/
def chunk16 : List Nat → List (List Nat)
  | [] => []
  | w :: ws => (w :: ws.take 15) :: chunk16 (ws.drop 15)
termination_by l => l.length
decreasing_by simp [List.length_drop]; omega

/-- Expand a 16-word block to the 80-word message schedule. -/
def sha1Schedule (block : List Nat) : Array Nat :=
  (List.range 64).foldl
    (fun a _ =>
      let i := a.size
      a.push (rotl 1 ((a.getD (i - 3) 0) ^^^ (a.getD (i - 8) 0) ^^^
                      (a.getD (i - 14) 0) ^^^ (a.getD (i - 16) 0))))
    block.toArray

/-- The five 32-bit state words of SHA-1. -/
abbrev Sha1State := Nat × Nat × Nat × Nat × Nat

/-- Compress one 16-word block into the running state. -/
def sha1Compress (h : Sha1State) (block : List Nat) : Sha1State :=
  let w := sha1Schedule block
  let s :=
    (List.range 80).foldl
      (fun (st : Sha1State) t =>
        let (a, b, c, d, e) := st
        let f :=
          if t < 20 then (b &&& c) ||| ((4294967295 ^^^ b) &&& d)
          else if t < 40 then b ^^^ c ^^^ d
          else if t < 60 then (b &&& c) ||| (b &&& d) ||| (c &&& d)
          else b ^^^ c ^^^ d
        let k :=
          if t < 20 then 1518500249
          else if t < 40 then 1859775393
          else if t < 60 then 2400959708
          else 3395469782
        let temp := w32 (rotl 5 a + f + e + k + w.getD t 0)
        (temp, a, rotl 30 b, c, d))
      h
  (w32 (h.1 + s.1), w32 (h.2.1 + s.2.1), w32 (h.2.2.1 + s.2.2.1),
   w32 (h.2.2.2.1 + s.2.2.2.1), w32 (h.2.2.2.2 + s.2.2.2.2))

/-- The initial SHA-1 state words. -/
def sha1Init : Sha1State :=
  (1732584193, 4023233417, 2562383102, 271733878, 3285377520)

/-- The SHA-1 digest of a byte list as one natural number below 2^160
(the concatenation h0 h1 h2 h3 h4 that hexdigest prints). -/
def sha1Digest (msg : List Nat) : Nat :=
  let hs := (chunk16 (bytesToWords (sha1Pad msg))).foldl sha1Compress sha1Init
  hs.1 * 2 ^ 128 + hs.2.1 * 2 ^ 96 + hs.2.2.1 * 2 ^ 64 + hs.2.2.2.1 * 2 ^ 32 + hs.2.2.2.2

/-- One hexadecimal digit (lowercase, as hexdigest prints). -/
def hexChar (n : Nat) : Char :=
  if n < 10 then Char.ofNat (48 + n) else Char.ofNat (87 + n)

/-- The 40-character lowercase hex rendering of a 160-bit digest
(hashlib hexdigest). -/
def hexDigest (n : Nat) : String :=
  ⟨(List.range 40).map (fun i => hexChar ((n >>> (4 * (39 - i))) % 16))⟩

/-
Model of pickle.dumps(self.config) in CachedLDAPConnection._config_id: an
injective byte serialization of the whole configuration state.  The exact
pickle byte stream of a ConfigParser object is not reproduced; what the
claims rest on is that the serialization is (a) a pure function of the
configuration and (b) injective, which holds of pickle because unpickling
recovers the object state.  Every character is encoded as three big-endian
bytes of its code point (code points are below 0x110000, so the leading
byte is below 17), and fields are separated by the marker 255 0 0, which no
character block can produce.
-/

/-- Three-byte big-endian encoding of one character. -/
def encChar (c : Char) : List Nat :=
  [c.toNat >>> 16, (c.toNat >>> 8) % 256, c.toNat % 256]

/-- Character-wise encoding of a string. -/
def encChars : List Char → List Nat
  | [] => []
  | c :: cs => encChar c ++ encChars cs

/-- One field followed by the 255 0 0 separator and the rest. -/
def encField (s : String) (rest : List Nat) : List Nat :=
  encChars s.data ++ 255 :: 0 :: 0 :: rest

/-- The serialized configuration: every option of every section, in a fixed
order, each field terminated by the separator. -/
def encodeConfig (c : LdapConfig) : List Nat :=
  encField c.server (encField c.port (encField c.ssl (encField c.starttls
    (encField c.basedn (encField c.user (encField c.password (encField c.gssapi
      (encField c.filter (encField c.search_fields (encField c.optional_column
        (encField c.cache_enable (encField c.cache_path
          (encField c.argv_encoding [])))))))))))))

namespace CachedLDAPConnection

/-- CachedLDAPConnection._config_id: the sha1 hexdigest of the pickled
configuration. -/
def _config_id (cfg : LdapConfig) : String :=
  hexDigest (sha1Digest (encodeConfig cfg))

/-- CachedLDAPConnection._cache_key: the (config id, query) pair. -/
def _cache_key (cfg : LdapConfig) (query : String) : String × String :=
  (_config_id cfg, query)

/-- CachedLDAPConnection._cache_lookup: (False, None) when the key is
absent, (True, entries) when present. -/
def _cache_lookup (cfg : LdapConfig) (c : Cache) (query : String) :
    Bool × Option (List Entry) :=
  match cacheGet? c (_cache_key cfg query) with
  | none => (false, none)
  | some es => (true, some es)

/-- CachedLDAPConnection._cache_store. -/
def _cache_store (cfg : LdapConfig) (c : Cache) (query : String)
    (entries : List Entry) : Cache :=
  cacheSet c (_cache_key cfg query) entries

/-- The mutable state of a CachedLDAPConnection: whether connection is not
None, and the _cache attribute (none models the attribute never having been
set, i.e. connect() was never called, so touching it raises
AttributeError). -/
structure State where
  connected : Bool
  cache : Option Cache
  deriving DecidableEq, Repr

/-- What one run of the CachedLDAPConnection.search generator does when the
consumer calls next() exactly k times (abandoning the iterator afterwards):
the entries the consumer received, how the iteration ended from the
consumer's point of view (pending when the generator was abandoned while
still suspended), the _cache afterwards, and the filter bytes of the live
request, none when no live search was issued. -/
structure CachedRun where
  outputs : List Entry
  terminal : Terminal
  finalCache : Option Cache
  issued : Option (List Nat)
  deriving DecidableEq, Repr

/-- CachedLDAPConnection.search(query) under consumption bound k, over a
script of poll outcomes for the underlying live search:

    cache_hit, entries = self._cache_lookup(query=query)
    if cache_hit:
        for entry in entries: yield entry
    else:
        entries = []
        for entry in super().search(query=query):
            entries.append(entry); yield entry
        self._cache_store(query=query, entries=entries)

The generator body only runs once the consumer asks for a value, so k = 0
touches nothing.  On the miss path the store only runs when the inner for
loop ends normally, i.e. on the next() call after the last live entry and
only when the live generator completed; an exception of the live search
propagates and skips the store. -/
def search (cfg : LdapConfig) (st : State) (query : String)
    (script : List PollRes) (k : Nat) : CachedRun :=
  if k = 0 then
    { outputs := [], terminal := .pending, finalCache := st.cache, issued := none }
  else
    match st.cache with
    | none =>
        { outputs := [], terminal := .raised (.attributeError "_cache"),
          finalCache := none, issued := none }
    | some c =>
        match (_cache_lookup cfg c query).2 with
        | some es =>
            { outputs := es.take k,
              terminal := if es.length < k then .completed else .pending,
              finalCache := some c, issued := none }
        | none =>
            let run := LDAPConnection.search cfg st.connected query script
            if k ≤ run.yielded.length then
              { outputs := run.yielded.take k, terminal := .pending,
                finalCache := some c, issued := run.issued }
            else
              match run.terminal with
              | .completed =>
                  { outputs := run.yielded, terminal := .completed,
                    finalCache := some (_cache_store cfg c query run.yielded),
                    issued := run.issued }
              | .raised e =>
                  { outputs := run.yielded, terminal := .raised e,
                    finalCache := some c, issued := run.issued }
              | .pending =>
                  { outputs := run.yielded, terminal := .pending,
                    finalCache := some c, issued := run.issued }

end CachedLDAPConnection

/-
Model of Python 2 pickle.load for CachedLDAPConnection._load_cache.  The
loader reads one-byte opcodes and dispatches on them; what matters for the
cache-loading claim is the exception each kind of input raises:
  - end of input dispatches to load_eof, which raises EOFError (the
    dispatch table maps the empty read to load_eof);
  - a byte that is no opcode raises KeyError (a plain dict lookup in the
    dispatch table);
  - STOP with an empty stack raises IndexError (stack.pop on an empty
    list).
The machine below implements the opcodes MARK, EMPTY_DICT, NONE, STOP of
the real table; every other byte is treated as an unknown opcode.  The
theorems only evaluate the loader on inputs made of these opcodes or of
bytes that are unknown to the real table as well, where the fragment
agrees with Python exactly. -/

/-- A value the modelled unpickler can produce or stack. -/
inductive PyVal where
  | none
  | dict (items : List ((String × String) × List Entry))
  | markObj
  deriving DecidableEq, Repr

namespace Pickle

/-- The opcode loop of pickle.Unpickler.load over the input bytes and the
value stack. -/
def loadLoop : List Nat → List PyVal → Except PyExc PyVal
  | [], _ => .error .eofError
  | b :: rest, stack =>
      if b = 40 then loadLoop rest (.markObj :: stack)           -- MARK
      else if b = 125 then loadLoop rest (.dict [] :: stack)     -- EMPTY_DICT
      else if b = 78 then loadLoop rest (.none :: stack)         -- NONE
      else if b = 46 then                                        -- STOP
        match stack with
        | [] => .error .indexError
        | v :: _ => .ok v
      else .error (.keyError (String.mk [Char.ofNat b]))

/-- pickle.load on a byte stream. -/
def load (bs : List Nat) : Except PyExc PyVal := loadLoop bs []

end Pickle

namespace CachedLDAPConnection

/-- Which exceptions the except clauses of _load_cache catch: IOError
(missing file), and ValueError or KeyError (the comment in the source says
"probably a corrupt cache file"). -/
def caughtByLoadCache : PyExc → Bool
  | .ioError => true
  | .valueError => true
  | .keyError _ => true
  | _ => false

/-- CachedLDAPConnection._load_cache over the cache file contents (none
models a missing file, where open() raises IOError):

    try: self._cache = pickle.load(open(path, 'rb'))
    except IOError: self._cache = ()
    except (ValueError, KeyError): self._cache = ()

An uncaught exception propagates out of connect(). -/
def _load_cache (file : Option (List Nat)) : Except PyExc PyVal :=
  match file with
  | Option.none => .ok (.dict [])
  | some bytes =>
      match Pickle.load bytes with
      | .ok v => .ok v
      | .error e => if caughtByLoadCache e then .ok (.dict []) else .error e

end CachedLDAPConnection

/-
Helper lemmas shared by the claim theorems.
-/

theorem cacheGet?_cacheSet_self (c : Cache) (k : String × String) (v : List Entry) :
    cacheGet? (cacheSet c k v) k = some v := by
  induction c with
  | nil => simp [cacheSet, cacheGet?]
  | cons p rest ih =>
      by_cases h : p.1 = k
      · simp [cacheSet, cacheGet?, h]
      · simp [cacheSet, cacheGet?, h, ih]

theorem cacheGet?_cacheSet_ne (c : Cache) (k k' : String × String) (v : List Entry)
    (h : k' ≠ k) : cacheGet? (cacheSet c k v) k' = cacheGet? c k' := by
  have hne : ¬ (k = k') := fun h' => h h'.symm
  induction c with
  | nil => simp [cacheSet, cacheGet?, hne]
  | cons p rest ih =>
      by_cases hp : p.1 = k
      · simp [cacheSet, cacheGet?, hp, hne]
      · simp [cacheSet, cacheGet?, hp, ih]

/-- The entries delivered by the data packets of a poll script (the order
the poll loop yields them in). -/
def okData : List PollRes → List Entry
  | [] => []
  | .ok (_, d) :: r => d ++ okData r
  | .error _ :: r => okData r

theorem pollLoop_adminlimit (pre post : List PollRes) (acc : List Entry)
    (h : ∀ p ∈ pre, ∃ rt d, p = .ok (rt, d) ∧ rt ≠ RES_SEARCH_RESULT) :
    LDAPConnection.pollLoop (pre ++ .error .adminlimitExceeded :: post) acc =
      (acc ++ okData pre, .completed) := by
  induction pre generalizing acc with
  | nil => simp [LDAPConnection.pollLoop, okData]
  | cons p pre ih =>
      obtain ⟨rt, d, hpe, hrt⟩ := h p (List.mem_cons_self p pre)
      subst hpe
      have hrest := ih (acc ++ d) (fun q hq => h q (List.mem_cons_of_mem _ hq))
      simp [LDAPConnection.pollLoop, hrt, okData, hrest, List.append_assoc]

theorem mapM_loop_ok {α β : Type} (f : α → Except PyExc β) (g : α → β)
    (l : List α) (acc : List β) (h : ∀ a ∈ l, f a = .ok (g a)) :
    List.mapM.loop f l acc = .ok (acc.reverse ++ l.map g) := by
  induction l generalizing acc with
  | nil => simp [List.mapM.loop, pure, Except.pure]
  | cons a l ih =>
      have ha := h a (List.mem_cons_self a l)
      have hl := ih (g a :: acc) (fun b hb => h b (List.mem_cons_of_mem a hb))
      have hb : ∀ (x : β) (k : β → Except PyExc (List β)),
          (Except.ok x >>= k) = k x := fun _ _ => rfl
      simp [List.mapM.loop, ha, hb, hl]

theorem mapM_ok_of_all {α β : Type} (f : α → Except PyExc β) (g : α → β)
    (l : List α) (h : ∀ a ∈ l, f a = .ok (g a)) :
    l.mapM f = .ok (l.map g) := by
  simpa using mapM_loop_ok f g l [] h

/-- All five state words are 32-bit. -/
def Sha1Bounded (st : Sha1State) : Prop :=
  st.1 < 4294967296 ∧ st.2.1 < 4294967296 ∧ st.2.2.1 < 4294967296 ∧
    st.2.2.2.1 < 4294967296 ∧ st.2.2.2.2 < 4294967296

theorem sha1Compress_bounded (st : Sha1State) (b : List Nat) :
    Sha1Bounded (sha1Compress st b) := by
  refine ⟨?_, ?_, ?_, ?_, ?_⟩ <;> exact Nat.mod_lt _ (by norm_num)

theorem foldl_sha1Compress_bounded (l : List (List Nat)) (st : Sha1State)
    (h : Sha1Bounded st) : Sha1Bounded (l.foldl sha1Compress st) := by
  induction l generalizing st with
  | nil => exact h
  | cons b l ih =>
      rw [List.foldl_cons]
      exact ih _ (sha1Compress_bounded st b)

theorem sha1Digest_lt (msg : List Nat) : sha1Digest msg < 2 ^ 160 := by
  have h := foldl_sha1Compress_bounded (chunk16 (bytesToWords (sha1Pad msg)))
    sha1Init (by refine ⟨?_, ?_, ?_, ?_, ?_⟩ <;> norm_num [sha1Init])
  obtain ⟨h0, h1, h2, h3, h4⟩ := h
  simp only [sha1Digest]
  have e96 : (2 : Nat) ^ 96 = 79228162514264337593543950336 := by norm_num
  have e64 : (2 : Nat) ^ 64 = 18446744073709551616 := by norm_num
  have e32 : (2 : Nat) ^ 32 = 4294967296 := by norm_num
  have e128 : (2 : Nat) ^ 128 = 340282366920938463463374607431768211456 := by norm_num
  have e160 : (2 : Nat) ^ 160 =
    1461501637330902918203684832716283019655932542976 := by norm_num
  rw [e96, e64, e32, e128, e160]
  omega

theorem char_toNat_lt (c : Char) : c.toNat < 1114112 := by
  have h : c.val.toNat < 55296 ∨ 57344 ≤ c.val.toNat ∧ c.val.toNat < 1114112 := c.valid
  simp only [Char.toNat]
  omega

theorem char_toNat_inj {c d : Char} (h : c.toNat = d.toNat) : c = d :=
  Char.ext (UInt32.ext h)

theorem encChar_head_lt (c : Char) : c.toNat >>> 16 < 17 := by
  have h := char_toNat_lt c
  rw [Nat.shiftRight_eq_div_pow]
  omega

theorem encChar_inj {c d : Char}
    (h1 : c.toNat >>> 16 = d.toNat >>> 16)
    (h2 : (c.toNat >>> 8) % 256 = (d.toNat >>> 8) % 256)
    (h3 : c.toNat % 256 = d.toNat % 256) : c = d := by
  apply char_toNat_inj
  have hc := char_toNat_lt c
  have hd := char_toNat_lt d
  rw [Nat.shiftRight_eq_div_pow] at h1
  rw [Nat.shiftRight_eq_div_pow] at h2
  rw [Nat.shiftRight_eq_div_pow] at h1
  rw [Nat.shiftRight_eq_div_pow] at h2
  omega

theorem encChars_sep_inj : ∀ (s t : List Char) (r₁ r₂ : List Nat),
    encChars s ++ 255 :: 0 :: 0 :: r₁ = encChars t ++ 255 :: 0 :: 0 :: r₂ →
    s = t ∧ r₁ = r₂ := by
  intro s
  induction s with
  | nil =>
      intro t r₁ r₂ h
      cases t with
      | nil => simpa [encChars] using h
      | cons d t' =>
          exfalso
          have hd := encChar_head_lt d
          have : (255 : Nat) = d.toNat >>> 16 := by
            simpa [encChars, encChar] using congrArg (fun l => l.headD 0) h
          omega
  | cons c s' ih =>
      intro t r₁ r₂ h
      cases t with
      | nil =>
          exfalso
          have hc := encChar_head_lt c
          have : c.toNat >>> 16 = 255 := by
            simpa [encChars, encChar] using congrArg (fun l => l.headD 0) h
          omega
      | cons d t' =>
          simp only [encChars, encChar, List.cons_append, List.append_assoc,
            List.cons.injEq] at h
          obtain ⟨h1, h2, h3, h4⟩ := h
          obtain ⟨hs, hr⟩ := ih t' r₁ r₂ h4
          exact ⟨by rw [encChar_inj h1 h2 h3, hs], hr⟩

theorem encField_inj {s t : String} {r₁ r₂ : List Nat}
    (h : encField s r₁ = encField t r₂) : s = t ∧ r₁ = r₂ := by
  obtain ⟨hd, hr⟩ := encChars_sep_inj s.data t.data r₁ r₂ h
  refine ⟨?_, hr⟩
  cases s
  cases t
  exact congrArg String.mk hd

theorem encodeConfig_inj {c₁ c₂ : LdapConfig}
    (h : encodeConfig c₁ = encodeConfig c₂) : c₁ = c₂ := by
  unfold encodeConfig at h
  obtain ⟨e1, h⟩ := encField_inj h
  obtain ⟨e2, h⟩ := encField_inj h
  obtain ⟨e3, h⟩ := encField_inj h
  obtain ⟨e4, h⟩ := encField_inj h
  obtain ⟨e5, h⟩ := encField_inj h
  obtain ⟨e6, h⟩ := encField_inj h
  obtain ⟨e7, h⟩ := encField_inj h
  obtain ⟨e8, h⟩ := encField_inj h
  obtain ⟨e9, h⟩ := encField_inj h
  obtain ⟨e10, h⟩ := encField_inj h
  obtain ⟨e11, h⟩ := encField_inj h
  obtain ⟨e12, h⟩ := encField_inj h
  obtain ⟨e13, h⟩ := encField_inj h
  obtain ⟨e14, h⟩ := encField_inj h
  cases c₁
  cases c₂
  simp_all

/-
Concrete data for the closed theorems and witnesses.
-/

/-- A small concrete configuration. -/
def cfgA : LdapConfig :=
  { server := "s", port := "389", ssl := "no", starttls := "no", basedn := "b",
    user := "", password := "", gssapi := "no", filter := "",
    search_fields := "cn mail", optional_column := "", cache_enable := "yes",
    cache_path := "p", argv_encoding := "utf-8" }

/-- cfgA with a different search_fields value (a query-relevant field). -/
def cfgB : LdapConfig := { cfgA with search_fields := "cn" }

/-- cfgA with a static query filter configured. -/
def cfgPerson : LdapConfig := { cfgA with filter := "(objectClass=person)" }

/-- A concrete directory entry. -/
def entryAnn : Entry := ("cn=Ann", [("cn", ["Ann"]), ("mail", ["a@x.com"])])

/-- A family of configurations indexed by the length of search_fields. -/
def cfgOfN (n : Nat) : LdapConfig := { cfgA with search_fields := ⟨List.replicate n 'a'⟩ }

/-
C1.  The configuration fingerprint.
-/

/-- C1 (counterexample): the sensitivity half of the claim is false in
principle: _config_id hashes an unbounded configuration space onto the
finite 160-bit SHA-1 range, so by the pigeonhole principle two
configurations differing in search_fields share a fingerprint, and a cache
entry stored under one IS returned by a lookup under the other. -/
theorem config_id_collision_exists :
    ∃ c₁ c₂ : LdapConfig, c₁.search_fields ≠ c₂.search_fields ∧
      CachedLDAPConnection._config_id c₁ = CachedLDAPConnection._config_id c₂ ∧
      ∀ q es, cacheGet? (CachedLDAPConnection._cache_store c₁ [] q es)
          (CachedLDAPConnection._cache_key c₂ q) = some es := by
  obtain ⟨n, m, hnm, hf⟩ := Finite.exists_ne_map_eq_of_infinite
    (fun n : ℕ =>
      (⟨sha1Digest (encodeConfig (cfgOfN n)), sha1Digest_lt _⟩ : Fin (2 ^ 160)))
  have hdig : sha1Digest (encodeConfig (cfgOfN n)) =
      sha1Digest (encodeConfig (cfgOfN m)) := congrArg Fin.val hf
  refine ⟨cfgOfN n, cfgOfN m, ?_, ?_, ?_⟩
  · intro h
    apply hnm
    have := congrArg (fun s : String => s.data.length) h
    simpa [cfgOfN, cfgA] using this
  · unfold CachedLDAPConnection._config_id
    rw [hdig]
  · intro q es
    have hkey : CachedLDAPConnection._cache_key (cfgOfN m) q =
        CachedLDAPConnection._cache_key (cfgOfN n) q := by
      unfold CachedLDAPConnection._cache_key CachedLDAPConnection._config_id
      rw [hdig]
    rw [hkey]
    unfold CachedLDAPConnection._cache_store
    exact cacheGet?_cacheSet_self [] _ es

/-- C1 (amended): the fingerprint is a pure function of the configuration
alone (so identical settings always map to the identical fingerprint); the
serialization feeding the hash is injective, and concretely two
configurations differing in search_fields serialize differently; whenever
the fingerprints DO differ, a cache entry stored under one configuration is
never returned by a lookup under the other.  Absolute sensitivity holds
only up to SHA-1 collisions (see the counterexample). -/
theorem config_id_amended :
    (∀ c : LdapConfig, CachedLDAPConnection._config_id c =
        hexDigest (sha1Digest (encodeConfig c))) ∧
    (∀ c₁ c₂ : LdapConfig, encodeConfig c₁ = encodeConfig c₂ → c₁ = c₂) ∧
    encodeConfig cfgA ≠ encodeConfig cfgB ∧
    (∀ (c₁ c₂ : LdapConfig) (q q' : String) (es : List Entry),
        CachedLDAPConnection._config_id c₁ ≠ CachedLDAPConnection._config_id c₂ →
        cacheGet? (CachedLDAPConnection._cache_store c₁ [] q es)
          (CachedLDAPConnection._cache_key c₂ q') = none) := by
  refine ⟨fun _ => rfl, fun c₁ c₂ h => encodeConfig_inj h, by decide, ?_⟩
  intro c₁ c₂ q q' es hne
  unfold CachedLDAPConnection._cache_store
  rw [cacheGet?_cacheSet_ne]
  · rfl
  · intro h
    exact hne (congrArg Prod.fst h).symm

/-
C2.  No cache write without a completed search.
-/

/-- C2: when the consumer abandons the cache-miss iteration before the
generator runs past the last live entry (k at most the number of yielded
entries), or when the underlying search does not complete, the cache is
left untouched, so the (fingerprint, query) key still maps to nothing. -/
theorem no_cache_write_on_abandoned_search
    (cfg : LdapConfig) (st : CachedLDAPConnection.State) (q : String)
    (script : List PollRes) (k : Nat) (c : Cache)
    (hc : st.cache = some c)
    (hmiss : cacheGet? c (CachedLDAPConnection._cache_key cfg q) = none)
    (habandon : k ≤ (LDAPConnection.search cfg st.connected q script).yielded.length ∨
      (LDAPConnection.search cfg st.connected q script).terminal ≠ .completed) :
    (CachedLDAPConnection.search cfg st q script k).finalCache = some c ∧
    cacheGet? c (CachedLDAPConnection._cache_key cfg q) = none := by
  refine ⟨?_, hmiss⟩
  unfold CachedLDAPConnection.search
  rcases Nat.eq_zero_or_pos k with hk | hk
  · simp [hk, hc]
  · have hk0 : ¬ (k = 0) := Nat.pos_iff_ne_zero.mp hk
    rw [hc]
    simp only [hk0, if_false]
    unfold CachedLDAPConnection._cache_lookup
    rw [hmiss]
    simp only
    by_cases hlen : k ≤ (LDAPConnection.search cfg st.connected q script).yielded.length
    · simp [hlen]
    · have hterm : (LDAPConnection.search cfg st.connected q script).terminal ≠
          .completed := habandon.resolve_left hlen
      simp only [hlen, if_false]
      rcases hterm' : (LDAPConnection.search cfg st.connected q script).terminal with
        _ | e | _
      · exact absurd hterm' hterm
      · simp
      · simp

/-- A two-packet poll script: one data packet, then the final result. -/
def scriptW : List PollRes := [.ok (100, [entryAnn]), .ok (101, [])]

theorem no_cache_write_on_abandoned_search_witness :
    (CachedLDAPConnection.search cfgA ⟨true, some []⟩ "ann" scriptW 1).finalCache =
      some [] ∧
    cacheGet? [] (CachedLDAPConnection._cache_key cfgA "ann") = none :=
  no_cache_write_on_abandoned_search cfgA ⟨true, some []⟩ "ann" scriptW 1 [] rfl rfl
    (Or.inl (by decide))

/-
C3.  A cache hit replays the list stored by the first, completed run.
-/

/-- C3: after a first (cache-miss) run that was consumed past its last
entry and whose underlying search completed, a second run on the resulting
cache replays exactly the first run's output sequence, issues no live
search request, and the formatted rows of the two runs coincide. -/
theorem cache_hit_replays_first_run
    (cfg : LdapConfig) (q : String) (script script₂ : List PollRes) (c : Cache)
    (k₁ k₂ : Nat) (b₂ : Bool)
    (hmiss : cacheGet? c (CachedLDAPConnection._cache_key cfg q) = none)
    (hcomp : (LDAPConnection.search cfg true q script).terminal = .completed)
    (hk₁ : (LDAPConnection.search cfg true q script).yielded.length < k₁)
    (hk₂ : (LDAPConnection.search cfg true q script).yielded.length < k₂) :
    (CachedLDAPConnection.search cfg
        ⟨b₂, (CachedLDAPConnection.search cfg ⟨true, some c⟩ q script k₁).finalCache⟩
        q script₂ k₂).outputs =
      (CachedLDAPConnection.search cfg ⟨true, some c⟩ q script k₁).outputs ∧
    (CachedLDAPConnection.search cfg
        ⟨b₂, (CachedLDAPConnection.search cfg ⟨true, some c⟩ q script k₁).finalCache⟩
        q script₂ k₂).issued = none ∧
    (CachedLDAPConnection.search cfg
        ⟨b₂, (CachedLDAPConnection.search cfg ⟨true, some c⟩ q script k₁).finalCache⟩
        q script₂ k₂).terminal = .completed ∧
    ((CachedLDAPConnection.search cfg
        ⟨b₂, (CachedLDAPConnection.search cfg ⟨true, some c⟩ q script k₁).finalCache⟩
        q script₂ k₂).outputs).map (format_entry cfg) =
      ((CachedLDAPConnection.search cfg ⟨true, some c⟩ q script k₁).outputs).map
        (format_entry cfg) := by
  have hk₁0 : ¬ (k₁ = 0) := by omega
  have hk₂0 : ¬ (k₂ = 0) := by omega
  have hnle : ¬ (k₁ ≤ (LDAPConnection.search cfg true q script).yielded.length) := by
    omega
  have hrun1 : CachedLDAPConnection.search cfg ⟨true, some c⟩ q script k₁ =
      { outputs := (LDAPConnection.search cfg true q script).yielded,
        terminal := .completed,
        finalCache := some (CachedLDAPConnection._cache_store cfg c q
          (LDAPConnection.search cfg true q script).yielded),
        issued := (LDAPConnection.search cfg true q script).issued } := by
    unfold CachedLDAPConnection.search
    simp only [hk₁0, if_false]
    unfold CachedLDAPConnection._cache_lookup
    rw [hmiss]
    simp only [hnle, if_false]
    rw [hcomp]
  rw [hrun1]
  have hrun2 : CachedLDAPConnection.search cfg
      ⟨b₂, some (CachedLDAPConnection._cache_store cfg c q
        (LDAPConnection.search cfg true q script).yielded)⟩ q script₂ k₂ =
      { outputs := (LDAPConnection.search cfg true q script).yielded,
        terminal := .completed,
        finalCache := some (CachedLDAPConnection._cache_store cfg c q
          (LDAPConnection.search cfg true q script).yielded),
        issued := none } := by
    unfold CachedLDAPConnection.search
    simp only [hk₂0, if_false]
    unfold CachedLDAPConnection._cache_lookup CachedLDAPConnection._cache_store
    rw [cacheGet?_cacheSet_self]
    simp only [hk₂, if_true, List.take_of_length_le (Nat.le_of_lt hk₂)]
  rw [hrun2]
  exact ⟨rfl, rfl, rfl, rfl⟩

theorem cache_hit_replays_first_run_witness :
    (CachedLDAPConnection.search cfgA
        ⟨false, (CachedLDAPConnection.search cfgA ⟨true, some []⟩ "ann" scriptW 2).finalCache⟩
        "ann" [] 3).outputs =
      (CachedLDAPConnection.search cfgA ⟨true, some []⟩ "ann" scriptW 2).outputs ∧
    (CachedLDAPConnection.search cfgA
        ⟨false, (CachedLDAPConnection.search cfgA ⟨true, some []⟩ "ann" scriptW 2).finalCache⟩
        "ann" [] 3).issued = none ∧
    (CachedLDAPConnection.search cfgA
        ⟨false, (CachedLDAPConnection.search cfgA ⟨true, some []⟩ "ann" scriptW 2).finalCache⟩
        "ann" [] 3).terminal = .completed ∧
    ((CachedLDAPConnection.search cfgA
        ⟨false, (CachedLDAPConnection.search cfgA ⟨true, some []⟩ "ann" scriptW 2).finalCache⟩
        "ann" [] 3).outputs).map (format_entry cfgA) =
      ((CachedLDAPConnection.search cfgA ⟨true, some []⟩ "ann" scriptW 2).outputs).map
        (format_entry cfgA) :=
  cache_hit_replays_first_run cfgA "ann" scriptW [] [] 2 3 false rfl (by decide)
    (by decide) (by decide)

/-
C4.  Cache loading.
-/

/-- C4 (code_bug evidence): a missing cache file and corrupt bytes whose
unpickling raises KeyError are tolerated (empty cache), and a well-formed
pickled empty dict loads; but a cache file that is EMPTY (zero bytes) makes
pickle.load raise EOFError, which the except clauses (IOError, ValueError,
KeyError) do not catch, so loading crashes instead of yielding an empty
cache as the claim requires. -/
theorem load_cache_eoferror_on_empty_file :
    CachedLDAPConnection._load_cache (some []) = .error .eofError ∧
    CachedLDAPConnection._load_cache Option.none = .ok (.dict []) ∧
    CachedLDAPConnection._load_cache (some [122]) = .ok (.dict []) ∧
    CachedLDAPConnection._load_cache (some [125, 46]) = .ok (.dict []) ∧
    CachedLDAPConnection.caughtByLoadCache .eofError = false := by
  decide

/-
C5.  The filter string.
-/

/-- C5 (counterexample): with search_fields cn mail and query ann the code
does NOT produce the claimed strings: the OR clauses are joined with a
single space, and a configured static filter is wrapped in an extra pair of
parentheses. -/
theorem filterstr_not_as_claimed :
    LDAPConnection.filterstr cfgA "ann" ≠ "(|(cn=*ann*)(mail=*ann*))" ∧
    LDAPConnection.filterstr cfgPerson "ann" ≠
      "(&(objectClass=person)(|(cn=*ann*)(mail=*ann*)))" := by
  decide

/-- C5 (amended): the clauses are joined by a single space and the static
filter S is interpolated as (&(S)...), which doubles the parentheses of an
already-parenthesized S; concretely the two example filters are
(|(cn=*ann*) (mail=*ann*)) and
(&((objectClass=person))(|(cn=*ann*) (mail=*ann*))), and an empty query
omits the trailing wildcard after the equals-star prefix. -/
theorem filterstr_amended :
    (∀ (cfg : LdapConfig) (q : String), q ≠ "" → cfg.filter = "" →
      LDAPConnection.filterstr cfg q =
        "(|" ++ String.intercalate " "
          ((pySplit cfg.search_fields).map
            (fun f => "(" ++ f ++ "=*" ++ q ++ "*" ++ ")")) ++ ")") ∧
    (∀ (cfg : LdapConfig) (q : String), q ≠ "" → cfg.filter ≠ "" →
      LDAPConnection.filterstr cfg q =
        "(&(" ++ cfg.filter ++ ")" ++
          ("(|" ++ String.intercalate " "
            ((pySplit cfg.search_fields).map
              (fun f => "(" ++ f ++ "=*" ++ q ++ "*" ++ ")")) ++ ")") ++ ")") ∧
    LDAPConnection.filterstr cfgA "ann" = "(|(cn=*ann*) (mail=*ann*))" ∧
    LDAPConnection.filterstr cfgPerson "ann" =
      "(&((objectClass=person))(|(cn=*ann*) (mail=*ann*)))" ∧
    LDAPConnection.filterstr cfgA "" = "(|(cn=*) (mail=*))" := by
  refine ⟨?_, ?_, by decide, by decide, by decide⟩
  · intro cfg q hq hf
    unfold LDAPConnection.filterstr
    simp [hq, hf, String.append_assoc]
  · intro cfg q hq hf
    unfold LDAPConnection.filterstr
    simp [hq, hf, String.append_assoc]

/-
C6.  Administrative limit: silent early completion, truncated list cached.
-/

/-- C6: when the server raises ADMINLIMIT_EXCEEDED after some ordinary data
packets, the plain search ends as completed (nothing is raised) with
exactly the entries of those packets, and the cached variant, consumed past
its last entry, treats this as full completion and writes the truncated
list into the cache under the (fingerprint, query) key. -/
theorem adminlimit_truncates_and_caches
    (cfg : LdapConfig) (st : CachedLDAPConnection.State) (q : String)
    (pre post : List PollRes) (c : Cache) (k : Nat)
    (hconn : st.connected = true) (hc : st.cache = some c)
    (hmiss : cacheGet? c (CachedLDAPConnection._cache_key cfg q) = none)
    (hpre : ∀ p ∈ pre, ∃ rt d, p = .ok (rt, d) ∧ rt ≠ RES_SEARCH_RESULT)
    (hk : (okData pre).length < k) :
    (LDAPConnection.search cfg st.connected q
        (pre ++ .error .adminlimitExceeded :: post)).terminal = .completed ∧
    (LDAPConnection.search cfg st.connected q
        (pre ++ .error .adminlimitExceeded :: post)).yielded = okData pre ∧
    (CachedLDAPConnection.search cfg st q
        (pre ++ .error .adminlimitExceeded :: post) k).terminal = .completed ∧
    (CachedLDAPConnection.search cfg st q
        (pre ++ .error .adminlimitExceeded :: post) k).finalCache =
      some (CachedLDAPConnection._cache_store cfg c q (okData pre)) ∧
    cacheGet? (CachedLDAPConnection._cache_store cfg c q (okData pre))
      (CachedLDAPConnection._cache_key cfg q) = some (okData pre) := by
  have hplain : LDAPConnection.search cfg st.connected q
      (pre ++ .error .adminlimitExceeded :: post) =
      { issued := some (utf8Bytes (LDAPConnection.filterstr cfg q)),
        yielded := okData pre, terminal := .completed } := by
    rw [hconn]
    unfold LDAPConnection.search
    rw [pollLoop_adminlimit pre post [] hpre]
    simp
  have hk0 : ¬ (k = 0) := by omega
  have hnle : ¬ (k ≤ (okData pre).length) := by omega
  refine ⟨by rw [hplain], by rw [hplain], ?_, ?_, ?_⟩
  · unfold CachedLDAPConnection.search
    rw [hc, hplain]
    simp only [hk0, if_false]
    unfold CachedLDAPConnection._cache_lookup
    rw [hmiss]
    simp only [hnle, if_false]
  · unfold CachedLDAPConnection.search
    rw [hc, hplain]
    simp only [hk0, if_false]
    unfold CachedLDAPConnection._cache_lookup
    rw [hmiss]
    simp only [hnle, if_false]
  · unfold CachedLDAPConnection._cache_store
    exact cacheGet?_cacheSet_self c _ _

/-- A one-data-packet script prefix for the admin-limit witness. -/
def preW : List PollRes := [.ok (100, [entryAnn])]

theorem adminlimit_truncates_and_caches_witness :
    (LDAPConnection.search cfgA true "ann"
        (preW ++ .error .adminlimitExceeded :: [])).terminal = .completed ∧
    (LDAPConnection.search cfgA true "ann"
        (preW ++ .error .adminlimitExceeded :: [])).yielded = okData preW ∧
    (CachedLDAPConnection.search cfgA ⟨true, some []⟩ "ann"
        (preW ++ .error .adminlimitExceeded :: []) 2).terminal = .completed ∧
    (CachedLDAPConnection.search cfgA ⟨true, some []⟩ "ann"
        (preW ++ .error .adminlimitExceeded :: []) 2).finalCache =
      some (CachedLDAPConnection._cache_store cfgA [] "ann" (okData preW)) ∧
    cacheGet? (CachedLDAPConnection._cache_store cfgA [] "ann" (okData preW))
      (CachedLDAPConnection._cache_key cfgA "ann") = some (okData preW) :=
  adminlimit_truncates_and_caches cfgA ⟨true, some []⟩ "ann" preW [] [] 2 rfl rfl rfl
    (by
      intro p hp
      simp only [preW, List.mem_singleton] at hp
      subst hp
      exact ⟨100, [entryAnn], rfl, by decide⟩)
    (by decide)

/-
C7 and C10.  Entry formatting.
-/

theorem except_bind_ok {α β : Type} (x : α) (k : α → Except PyExc β) :
    (Except.ok x >>= k : Except PyExc β) = k x := rfl

theorem except_bind_err {α β : Type} (e : PyExc) (k : α → Except PyExc β) :
    (Except.error e >>= k : Except PyExc β) = .error e := rfl

theorem except_map_ok {α β : Type} (f : α → β) (x : α) :
    (Except.ok x : Except PyExc α).map f = .ok (f x) := rfl

/-- C7 (counterexample): an entry carrying mail and displayName but no cn
does not format into rows; the unconditional data-cn default raises
KeyError despite displayName being present, contradicting the claim that
displayName alone determines the name field. -/
theorem format_entry_keyerror_without_cn :
    format_entry cfgA
        ("cn=Ann", [("mail", ["a@x.com"]), ("displayName", ["Ann B"])]) =
      .error (.keyError "cn") ∧
    format_entry cfgA
        ("cn=Ann", [("mail", ["a@x.com"]), ("displayName", ["Ann B"])]) ≠
      .ok ["a@x.com\tAnn B"] := by
  decide

/-- cfgA with the optional output column set to ou. -/
def cfgOpt : LdapConfig := { cfgA with optional_column := "ou" }

/-- C7 (amended): provided the entry also carries a nonempty cn (the
fallback is evaluated unconditionally, so cn must be present whenever mail
is), formatting yields one row per mail value, each row the tab-join of the
mail value, the last value of displayName when present else of cn, and,
only when the configured optional attribute is present, its last value;
including the two concrete examples of the claim. -/
theorem format_entry_amended :
    (∀ (cfg : LdapConfig) (dn : String) (data : AttrMap) (ms cs : List String)
        (nm : String),
      dictGet? data "mail" = some ms →
      dictGet? data "cn" = some cs →
      pyLast ((dictGet? data "displayName").getD cs) = .ok nm →
      dictGet? data cfg.optional_column = none →
      format_entry cfg (dn, data) =
        .ok (ms.map (fun m => String.intercalate "\t" [m, nm]))) ∧
    (∀ (cfg : LdapConfig) (dn : String) (data : AttrMap) (ms cs vs : List String)
        (nm ex : String),
      dictGet? data "mail" = some ms →
      dictGet? data "cn" = some cs →
      pyLast ((dictGet? data "displayName").getD cs) = .ok nm →
      dictGet? data cfg.optional_column = some vs →
      pyLast vs = .ok ex →
      format_entry cfg (dn, data) =
        .ok (ms.map (fun m => String.intercalate "\t" [m, nm, ex]))) ∧
    format_entry cfgA ("cn=Ann",
        [("mail", ["a@x.com", "b@x.com"]), ("displayName", ["Ann B"]),
         ("cn", ["x"])]) =
      .ok ["a@x.com\tAnn B", "b@x.com\tAnn B"] ∧
    format_entry cfgA ("cn=Ann",
        [("mail", ["a@x.com"]), ("cn", ["Ann", "Annie"])]) =
      .ok ["a@x.com\tAnnie"] ∧
    format_entry cfgOpt ("cn=Ann",
        [("mail", ["a@x.com"]), ("cn", ["Ann"]), ("ou", ["Sales", "HQ"])]) =
      .ok ["a@x.com\tAnn\tHQ"] := by
  refine ⟨?_, ?_, by decide, by decide, by decide⟩
  · intro cfg dn data ms cs nm hm hcn hname hopt
    simp only [format_entry, hm]
    apply mapM_ok_of_all
    intro m hmem
    simp only [format_columns, hcn, except_bind_ok, pure, Except.pure, hname, hopt,
      except_map_ok, pyUnicode]
  · intro cfg dn data ms cs vs nm ex hm hcn hname hopt hex
    simp only [format_entry, hm]
    apply mapM_ok_of_all
    intro m hmem
    simp only [format_columns, hcn, except_bind_ok, pure, Except.pure, hname, hopt,
      hex, except_map_ok, pyUnicode]

/-- C10 (counterexample): an attribute map containing mail with an EMPTY
value list and neither displayName nor cn formats to zero rows with no
error: the for loop over the mail values never runs, so the unguarded cn
access is never reached and no lookup error is raised. -/
theorem format_entry_empty_mail_no_error :
    format_entry cfgA ("dn", [("mail", [])]) = .ok [] ∧
    (∀ e : PyExc, format_entry cfgA ("dn", [("mail", [])]) ≠ .error e) := by
  refine ⟨by decide, ?_⟩
  intro e h
  rw [show format_entry cfgA ("dn", [("mail", [])]) = .ok [] from by decide] at h
  cases h

/-- C10 (amended): for every entry whose attribute map contains mail with
at least one value and contains neither displayName nor cn, formatting
raises KeyError on cn: the fallback access is unguarded, so such an entry
can never be formatted into rows. -/
theorem format_entry_keyerror_no_name_attrs
    (cfg : LdapConfig) (dn : String) (data : AttrMap) (ms : List String)
    (hm : dictGet? data "mail" = some ms) (hne : ms ≠ [])
    (_hd : dictGet? data "displayName" = none)
    (hcn : dictGet? data "cn" = none) :
    format_entry cfg (dn, data) = .error (.keyError "cn") := by
  obtain ⟨m, ms', rfl⟩ := List.exists_cons_of_ne_nil hne
  simp only [format_entry, hm, List.mapM_cons]
  simp only [format_columns, hcn, except_bind_err]
  rfl

theorem format_entry_keyerror_no_name_attrs_witness :
    format_entry cfgA ("dn", [("mail", ["a@x.com"])]) = .error (.keyError "cn") :=
  format_entry_keyerror_no_name_attrs cfgA "dn" [("mail", ["a@x.com"])]
    ["a@x.com"] rfl (by decide) rfl rfl

/-
C8.  Escaping of values interpolated into the filter.
-/

/-- Modelled from the spec: the wire-protocol (RFC 4515) escaping of LDAP
filter metacharacters that the spec requires for string values interpolated
into the filter.  The code under test does not perform this (or any)
escaping, which is what the counterexample exhibits. -/
def escape_filter_chars (s : String) : String :=
  String.join (s.data.map (fun c =>
    if c = '*' then "\\2a"
    else if c = '(' then "\\28"
    else if c = ')' then "\\29"
    else if c = '\\' then "\\5c"
    else String.mk [c]))

/-- C8 (counterexample): the query is interpolated without escaping: with
the single search field cn, the query ann)(uid=x produces a filter that
differs from the escaped construction the claim requires, and whose text
contains a second, injected clause: the metacharacters altered the filter
structure. -/
theorem filter_query_not_escaped :
    LDAPConnection.filterstr cfgB "ann)(uid=x" ≠
      LDAPConnection.filterstr cfgB (escape_filter_chars "ann)(uid=x") ∧
    LDAPConnection.filterstr cfgB "ann)(uid=x" = "(|(cn=*ann)(uid=x*))" := by
  decide

/-- C8 (amended): the filter is transmitted as the UTF-8 encoding of the
constructed filter string, but the query is interpolated verbatim with no
wire-protocol escaping: a star in the query stays a raw star in the filter
where the escaped form would read backslash-2a. -/
theorem filter_sent_utf8_unescaped_amended :
    (∀ (cfg : LdapConfig) (q : String) (script : List PollRes),
      (LDAPConnection.search cfg true q script).issued =
        some (utf8Bytes (LDAPConnection.filterstr cfg q))) ∧
    LDAPConnection.filterstr cfgB "a*" = "(|(cn=*a**))" ∧
    escape_filter_chars "a*" = "a\\2a" := by
  exact ⟨fun cfg q script => rfl, by decide, by decide⟩

/-
C9.  Searching without an open session.
-/

/-- C9 (counterexample): a CachedLDAPConnection whose connection is closed
(connection is None) but whose cache holds an entry for the key replays the
cached entries with no error at all: no not-connected failure occurs on a
cache hit. -/
theorem cached_search_replays_without_connection :
    (CachedLDAPConnection.search cfgA
        ⟨false, some (CachedLDAPConnection._cache_store cfgA [] "ann" [entryAnn])⟩
        "ann" [] 2).outputs = [entryAnn] ∧
    (CachedLDAPConnection.search cfgA
        ⟨false, some (CachedLDAPConnection._cache_store cfgA [] "ann" [entryAnn])⟩
        "ann" [] 2).terminal = .completed ∧
    (CachedLDAPConnection.search cfgA
        ⟨false, some (CachedLDAPConnection._cache_store cfgA [] "ann" [entryAnn])⟩
        "ann" [] 2).issued = none := by
  simp [CachedLDAPConnection.search, CachedLDAPConnection._cache_lookup,
    CachedLDAPConnection._cache_store, cacheGet?_cacheSet_self]

/-- C9 (amended): the plain search always fails with the not-connected
RuntimeError when no session is open; the cached search does so only on a
cache miss (when it reaches the live search), and when invoked on an object
that never connected (so the cache attribute was never set) it fails with
AttributeError instead. -/
theorem search_not_connected_amended :
    (∀ (cfg : LdapConfig) (q : String) (script : List PollRes),
      LDAPConnection.search cfg false q script =
        { issued := none, yielded := [],
          terminal := .raised
            (.runtimeError "connect to the LDAP server before searching") }) ∧
    (∀ (cfg : LdapConfig) (q : String) (script : List PollRes) (k : Nat) (c : Cache),
      k ≠ 0 →
      cacheGet? c (CachedLDAPConnection._cache_key cfg q) = none →
      (CachedLDAPConnection.search cfg ⟨false, some c⟩ q script k).outputs = [] ∧
      (CachedLDAPConnection.search cfg ⟨false, some c⟩ q script k).terminal =
        .raised (.runtimeError "connect to the LDAP server before searching")) ∧
    (∀ (cfg : LdapConfig) (q : String) (script : List PollRes) (k : Nat),
      k ≠ 0 →
      (CachedLDAPConnection.search cfg ⟨false, none⟩ q script k).terminal =
        .raised (.attributeError "_cache")) := by
  refine ⟨fun cfg q script => rfl, ?_, ?_⟩
  · intro cfg q script k c hk hmiss
    have hplain : LDAPConnection.search cfg false q script =
        { issued := none, yielded := [],
          terminal := .raised
            (.runtimeError "connect to the LDAP server before searching") } := rfl
    have hnle : ¬ (k ≤ (LDAPConnection.search cfg false q script).yielded.length) := by
      rw [hplain]
      simpa using hk
    constructor <;>
      · unfold CachedLDAPConnection.search
        simp only [hk, if_false]
        unfold CachedLDAPConnection._cache_lookup
        rw [hmiss]
        simp only [hnle, if_false]
        rw [hplain]
  · intro cfg q script k hk
    unfold CachedLDAPConnection.search
    simp only [hk, if_false]
